import Mathlib

/-
  Verification development for the prima-backend webhook service.

  The Go source (main.go, queries/users.sql) is shallowly embedded here.
  Byte strings (Go `string` / `[]byte`) are modelled as `List Nat` with each
  element a byte value; machine 32-bit words are `Nat` reduced modulo 2^32.
  The standard-library primitives the source calls (crypto/sha256,
  crypto/hmac, encoding/base64, strings) are implemented executably from
  their published specifications (FIPS 180-4, RFC 2104, RFC 4648, Go docs).
-/

set_option maxRecDepth 100000

namespace Prima

/-! ## Byte-string utilities (strings package, ASCII fragment) -/

/-- Whitespace test used by strings.TrimSpace, restricted to the ASCII
whitespace bytes (tab, newline, vertical tab, form feed, carriage return,
space). -/
def isSpaceByte (c : Nat) : Bool :=
  c == 9 || c == 10 || c == 11 || c == 12 || c == 13 || c == 32

/-- strings.TrimSpace: drop whitespace from both ends. -/
def trimSpace (s : List Nat) : List Nat :=
  ((s.dropWhile isSpaceByte).reverse.dropWhile isSpaceByte).reverse

/-- strings.ToLower on ASCII bytes: map the range A-Z to a-z. -/
def toLowerBytes (s : List Nat) : List Nat :=
  s.map (fun c => if 65 ≤ c ∧ c ≤ 90 then c + 32 else c)

/-- strings.SplitN(s, sep, 2) for a one-byte separator, as the pair of
segments around the first occurrence; `none` when the separator is absent
(Go then returns a one-element slice). -/
def splitFirst (sep : Nat) : List Nat → Option (List Nat × List Nat)
  | [] => none
  | c :: rest =>
    if c = sep then some ([], rest)
    else (splitFirst sep rest).map (fun p => (c :: p.1, p.2))

/-- strings.Split(s, sep) for a one-byte separator: every segment, empty
segments preserved. -/
def splitOnByte (sep : Nat) : List Nat → List (List Nat)
  | [] => [[]]
  | c :: rest =>
    match splitOnByte sep rest with
    | [] => [[]]
    | t :: ts => if c = sep then [] :: t :: ts else (c :: t) :: ts

/-! ## SHA-256 (crypto/sha256, FIPS 180-4) -/

/-- Reduce to a 32-bit word. -/
def w32 (x : Nat) : Nat := x % 4294967296

/-- Right rotation of a 32-bit word. -/
def rotr32 (n x : Nat) : Nat := w32 ((x >>> n) ||| (x <<< (32 - n)))

/-- SHA-256 Ch function. -/
def chWord (x y z : Nat) : Nat := (x &&& y) ^^^ ((x ^^^ 4294967295) &&& z)

/-- SHA-256 Maj function. -/
def majWord (x y z : Nat) : Nat := (x &&& y) ^^^ (x &&& z) ^^^ (y &&& z)

/-- SHA-256 big Sigma 0. -/
def bigSigma0 (x : Nat) : Nat := rotr32 2 x ^^^ rotr32 13 x ^^^ rotr32 22 x

/-- SHA-256 big Sigma 1. -/
def bigSigma1 (x : Nat) : Nat := rotr32 6 x ^^^ rotr32 11 x ^^^ rotr32 25 x

/-- SHA-256 small sigma 0. -/
def smallSigma0 (x : Nat) : Nat := rotr32 7 x ^^^ rotr32 18 x ^^^ (x >>> 3)

/-- SHA-256 small sigma 1. -/
def smallSigma1 (x : Nat) : Nat := rotr32 17 x ^^^ rotr32 19 x ^^^ (x >>> 10)

/-- SHA-256 round constants (the 64 FIPS 180-4 words, written in
decimal). -/
def sha256K : List Nat :=
  [1116352408, 1899447441, 3049323471, 3921009573, 961987163,
   1508970993, 2453635748, 2870763221, 3624381080, 310598401,
   607225278, 1426881987, 1925078388, 2162078206, 2614888103,
   3248222580, 3835390401, 4022224774, 264347078, 604807628,
   770255983, 1249150122, 1555081692, 1996064986, 2554220882,
   2821834349, 2952996808, 3210313671, 3336571891, 3584528711,
   113926993, 338241895, 666307205, 773529912, 1294757372,
   1396182291, 1695183700, 1986661051, 2177026350, 2456956037,
   2730485921, 2820302411, 3259730800, 3345764771, 3516065817,
   3600352804, 4094571909, 275423344, 430227734, 506948616,
   659060556, 883997877, 958139571, 1322822218, 1537002063,
   1747873779, 1955562222, 2024104815, 2227730452, 2361852424,
   2428436474, 2756734187, 3204031479, 3329325298]

/-- Big-endian 8-byte encoding of a length value. -/
def lenBytes8 (n : Nat) : List Nat :=
  [(n >>> 56) % 256, (n >>> 48) % 256, (n >>> 40) % 256, (n >>> 32) % 256,
   (n >>> 24) % 256, (n >>> 16) % 256, (n >>> 8) % 256, n % 256]

/-- SHA-256 padding: append 0x80, zero bytes to 56 mod 64, and the bit
length as 8 big-endian bytes. -/
def sha256Pad (msg : List Nat) : List Nat :=
  let len := msg.length
  let zeros := (64 - ((len + 9) % 64)) % 64
  msg ++ 128 :: (List.replicate zeros 0 ++ lenBytes8 (8 * len))

/-- Group bytes into big-endian 32-bit words. -/
def bytesToWords : List Nat → List Nat
  | a :: b :: c :: d :: rest => (((a * 256 + b) * 256 + c) * 256 + d) :: bytesToWords rest
  | _ => []

/-- Split a word sequence into 16-word blocks (the padded input is always
an exact multiple of 16 words). -/
def chunksOf16 : List Nat → List (List Nat)
  | w0 :: w1 :: w2 :: w3 :: w4 :: w5 :: w6 :: w7 ::
    w8 :: w9 :: w10 :: w11 :: w12 :: w13 :: w14 :: w15 :: rest =>
    [w0, w1, w2, w3, w4, w5, w6, w7, w8, w9, w10, w11, w12, w13, w14, w15] ::
    chunksOf16 rest
  | _ => []

/-- Extend a 16-word block by the SHA-256 message schedule recurrence,
one word per fuel step. -/
def extendSchedule (fuel : Nat) (w : List Nat) : List Nat :=
  match fuel with
  | 0 => w
  | f + 1 =>
    let n := w.length
    let x := w32 (smallSigma1 (w.getD (n - 2) 0) + w.getD (n - 7) 0 +
                  smallSigma0 (w.getD (n - 15) 0) + w.getD (n - 16) 0)
    extendSchedule f (w ++ [x])

/-- Full 64-word message schedule of one block. -/
def messageSchedule (block : List Nat) : List Nat := extendSchedule 48 block

/-- The eight 32-bit working variables of the SHA-256 compression. -/
structure Sha256State where
  a : Nat
  b : Nat
  c : Nat
  d : Nat
  e : Nat
  f : Nat
  g : Nat
  h : Nat
deriving DecidableEq

/-- One SHA-256 round: consume one (constant, schedule word) pair. -/
def roundStep (st : Sha256State) (kw : Nat × Nat) : Sha256State :=
  let t1 := w32 (st.h + bigSigma1 st.e + chWord st.e st.f st.g + kw.1 + kw.2)
  let t2 := w32 (bigSigma0 st.a + majWord st.a st.b st.c)
  ⟨w32 (t1 + t2), st.a, st.b, st.c, w32 (st.d + t1), st.e, st.f, st.g⟩

/-- Compress one 16-word block into the running state. -/
def compressBlock (st : Sha256State) (block : List Nat) : Sha256State :=
  let fin := (List.zip sha256K (messageSchedule block)).foldl roundStep st
  ⟨w32 (st.a + fin.a), w32 (st.b + fin.b), w32 (st.c + fin.c), w32 (st.d + fin.d),
   w32 (st.e + fin.e), w32 (st.f + fin.f), w32 (st.g + fin.g), w32 (st.h + fin.h)⟩

/-- SHA-256 initial hash value (the eight FIPS 180-4 words, written in
decimal). -/
def sha256IV : Sha256State :=
  ⟨1779033703, 3144134277, 1013904242, 2773480762,
   1359893119, 2600822924, 528734635, 1541459225⟩

/-- Big-endian bytes of one 32-bit word. -/
def wordToBytes (x : Nat) : List Nat :=
  [(x >>> 24) % 256, (x >>> 16) % 256, (x >>> 8) % 256, x % 256]

/-- SHA-256 of a byte sequence, as its 32 digest bytes. -/
def sha256 (msg : List Nat) : List Nat :=
  let fin := (chunksOf16 (bytesToWords (sha256Pad msg))).foldl compressBlock sha256IV
  wordToBytes fin.a ++ wordToBytes fin.b ++ wordToBytes fin.c ++ wordToBytes fin.d ++
  wordToBytes fin.e ++ wordToBytes fin.f ++ wordToBytes fin.g ++ wordToBytes fin.h

/-! ## HMAC-SHA256 (crypto/hmac, RFC 2104) -/

/-- HMAC-SHA256 with block size 64: hash an over-long key, zero-pad,
then the nested inner/outer hashing with the 0x36/0x5c pads. -/
def hmacSha256 (key msg : List Nat) : List Nat :=
  let k0 := if 64 < key.length then sha256 key else key
  let kp := k0 ++ List.replicate (64 - k0.length) 0
  let inner := sha256 (kp.map (fun b => b ^^^ 54) ++ msg)
  sha256 (kp.map (fun b => b ^^^ 92) ++ inner)

/-! ## Standard base64 (encoding/base64 StdEncoding, RFC 4648) -/

/-- The standard base64 alphabet, as the byte of the character at a 6-bit
index. -/
def b64Char (n : Nat) : Nat :=
  if n < 26 then 65 + n
  else if n < 52 then 97 + (n - 26)
  else if n < 62 then 48 + (n - 52)
  else if n = 62 then 43
  else 47

/-- Standard base64 encoding with padding, producing ASCII bytes. -/
def base64Encode : List Nat → List Nat
  | [] => []
  | [a] =>
    [b64Char (a >>> 2), b64Char ((a % 4) <<< 4), 61, 61]
  | [a, b] =>
    [b64Char (a >>> 2), b64Char (((a % 4) <<< 4) ||| (b >>> 4)),
     b64Char ((b % 16) <<< 2), 61]
  | a :: b :: c :: rest =>
    b64Char (a >>> 2) :: b64Char (((a % 4) <<< 4) ||| (b >>> 4)) ::
    b64Char (((b % 16) <<< 2) ||| (c >>> 6)) :: b64Char (c % 64) ::
    base64Encode rest

/-- Decode one standard base64 alphabet byte back to its 6-bit value. -/
def b64Val (c : Nat) : Option Nat :=
  if 65 ≤ c ∧ c ≤ 90 then some (c - 65)
  else if 97 ≤ c ∧ c ≤ 122 then some (c - 71)
  else if 48 ≤ c ∧ c ≤ 57 then some (c + 4)
  else if c = 43 then some 62
  else if c = 47 then some 63
  else none

/-- Decode base64 in 4-byte groups; only the final group may carry `=`
padding.  Any structural violation yields `none`, matching the error
return of Go's StdEncoding.DecodeString. -/
def base64DecodeGroups : List Nat → Option (List Nat)
  | [] => some []
  | a :: b :: c :: d :: rest =>
    match b64Val a, b64Val b with
    | some va, some vb =>
      if c = 61 ∧ d = 61 ∧ rest = [] then
        some [(va <<< 2) ||| (vb >>> 4)]
      else
        match b64Val c with
        | some vc =>
          if d = 61 ∧ rest = [] then
            some [(va <<< 2) ||| (vb >>> 4), ((vb % 16) <<< 4) ||| (vc >>> 2)]
          else
            match b64Val d with
            | some vd =>
              (base64DecodeGroups rest).map
                (fun r => ((va <<< 2) ||| (vb >>> 4)) ::
                          (((vb % 16) <<< 4) ||| (vc >>> 2)) ::
                          (((vc % 4) <<< 6) ||| vd) :: r)
            | none => none
        | none => none
    | _, _ => none
  | _ => none

/-- Go's StdEncoding.DecodeString: carriage returns and newlines are
skipped, then the stream must be well-formed 4-byte groups. -/
def base64Decode (s : List Nat) : Option (List Nat) :=
  base64DecodeGroups (s.filter (fun c => c ≠ 10 ∧ c ≠ 13))

/-! ## Svix signature verification (main.go verifySvix) -/

/-- The canonical signed message `svixID + "." + svixTimestamp + "." + body`
(46 is the '.' byte). -/
def canonicalMsg (svixID svixTimestamp body : List Nat) : List Nat :=
  svixID ++ 46 :: (svixTimestamp ++ 46 :: body)

/-- main.go verifySvix: fail closed on any empty input, split the secret at
the first '_' (byte 95), base64-decode the payload into the HMAC key,
compute the expected signature, and accept if any space-separated token of
the signature header is `v1,` (bytes 118,49,44) followed by exactly the
expected base64 signature. -/
def verifySvix (body secret svixID svixTimestamp svixSignature : List Nat) : Bool :=
  if secret = [] ∨ svixID = [] ∨ svixTimestamp = [] ∨ svixSignature = [] then
    false
  else
    match splitFirst 95 secret with
    | none => false
    | some parts =>
      match base64Decode parts.2 with
      | none => false
      | some key =>
        let expected := base64Encode (hmacSha256 key (canonicalMsg svixID svixTimestamp body))
        (splitOnByte 32 svixSignature).any (fun token =>
          match splitFirst 44 token with
          | some p => decide (p.1 = [118, 49] ∧ p.2 = expected)
          | none => false)

/-! ## Clerk webhook event model (main.go ClerkWebhookEvent) -/

/-- One element of the event's email_addresses array. -/
structure EmailEntry where
  id : List Nat
  emailAddress : List Nat
deriving DecidableEq

/-- The data object of a Clerk webhook event. -/
structure ClerkData where
  id : List Nat
  username : List Nat
  firstName : List Nat
  lastName : List Nat
  primaryEmailAddressID : List Nat
  emailAddresses : List EmailEntry
deriving DecidableEq

/-- A parsed Clerk webhook event: its type tag and data object. -/
structure ClerkWebhookEvent where
  type : List Nat
  data : ClerkData
deriving DecidableEq

/-- main.go toText: trim, and treat the empty result as SQL NULL. -/
def toText (s : List Nat) : Option (List Nat) :=
  let t := trimSpace s
  if t = [] then none else some t

/-- First loop of pickClerkEmail: scan for a candidate whose id equals the
primary reference and whose trimmed address is non-blank. -/
def findPrimaryLoop (primary : List Nat) : List EmailEntry → Option (List Nat)
  | [] => none
  | e :: rest =>
    if e.id = primary ∧ trimSpace e.emailAddress ≠ [] then
      some (toLowerBytes (trimSpace e.emailAddress))
    else findPrimaryLoop primary rest

/-- Second loop of pickClerkEmail: scan for the first candidate with a
non-blank trimmed address. -/
def findAnyLoop : List EmailEntry → Option (List Nat)
  | [] => none
  | e :: rest =>
    if trimSpace e.emailAddress ≠ [] then
      some (toLowerBytes (trimSpace e.emailAddress))
    else findAnyLoop rest

/-- main.go pickClerkEmail: prefer the primary-id match when a primary
reference is set, otherwise (or when no match) fall back to the first
non-blank address; empty when nothing qualifies. -/
def pickClerkEmail (evt : ClerkWebhookEvent) : List Nat :=
  let fromPrimary :=
    if evt.data.primaryEmailAddressID ≠ [] then
      findPrimaryLoop evt.data.primaryEmailAddressID evt.data.emailAddresses
    else none
  match fromPrimary with
  | some r => r
  | none =>
    match findAnyLoop evt.data.emailAddresses with
    | some r => r
    | none => []

/-- Email selection exactly as the specification words it, phrased with
List.find? over the ordered candidate list. -/
def emailSelectionSpec (primary : List Nat) (cands : List EmailEntry) : List Nat :=
  let matched :=
    if primary ≠ [] then
      cands.find? (fun e => decide (e.id = primary ∧ trimSpace e.emailAddress ≠ []))
    else none
  match matched with
  | some e => toLowerBytes (trimSpace e.emailAddress)
  | none =>
    match cands.find? (fun e => decide (trimSpace e.emailAddress ≠ [])) with
    | some e => toLowerBytes (trimSpace e.emailAddress)
    | none => []

/-- Display-name derivation of the webhook handler: trimmed
first + " " + last, else trimmed username, else the literal "User"
(bytes 85,115,101,114). -/
def displayName (evt : ClerkWebhookEvent) : List Nat :=
  let n1 := trimSpace (evt.data.firstName ++ 32 :: evt.data.lastName)
  if n1 = [] then
    let n2 := trimSpace evt.data.username
    if n2 = [] then [85, 115, 101, 114] else n2
  else n1

/-! ## User store (queries/users.sql over an embedded users table)

The users table rows carry the columns added by the migrations quoted in
docs/plans: role defaults to 'user', is_active defaults to TRUE and
deleted_at to NULL, since UpsertByClerkID's INSERT does not mention them. -/

/-- The bytes of the role string 'user', the schema default. -/
def roleUserB : List Nat := [117, 115, 101, 114]

/-- The bytes of the role string 'superadmin', the elevated role of the
first-user bootstrap plan. -/
def roleSuperadminB : List Nat := [115, 117, 112, 101, 114, 97, 100, 109, 105, 110]

/-- One row of the users table. -/
structure UserRow where
  clerkId : List Nat
  username : Option (List Nat)
  name : List Nat
  email : Option (List Nat)
  role : List Nat
  isActive : Bool
  deletedAt : Option Nat
deriving DecidableEq

/-- Parameters of the UpsertByClerkID query (db.UpsertByClerkIDParams). -/
structure UpsertParams where
  clerkId : List Nat
  username : Option (List Nat)
  name : List Nat
  email : Option (List Nat)
deriving DecidableEq

/-- queries/users.sql UpsertByClerkID: INSERT the four columns, and ON
CONFLICT (clerk_id) DO UPDATE username, name and
email = COALESCE(EXCLUDED.email, users.email).  The unspecified columns of
a fresh row take their schema defaults: role 'user' (bytes 117,115,101,114),
is_active TRUE, deleted_at NULL. -/
def applyUpsertByClerkID (st : List UserRow) (p : UpsertParams) : List UserRow :=
  if st.any (fun r => r.clerkId == p.clerkId) then
    st.map (fun r =>
      if r.clerkId = p.clerkId then
        { r with
          username := p.username
          name := p.name
          email := match p.email with
                   | some e => some e
                   | none => r.email }
      else r)
  else
    st ++ [{ clerkId := p.clerkId, username := p.username, name := p.name,
             email := p.email, role := roleUserB, isActive := true,
             deletedAt := none }]

/-- queries/users.sql DeleteUserByClerkID:
DELETE FROM users WHERE clerk_id = $1 — a physical row removal. -/
def applyDeleteUserByClerkID (st : List UserRow) (clerkId : List Nat) : List UserRow :=
  st.filter (fun r => r.clerkId ≠ clerkId)

/-! ## Webhook handler (main.go POST /webhooks/clerk) -/

/-- A call the handler issues against the user store. -/
inductive StoreCall where
  | upsert (p : UpsertParams)
  | delete (clerkId : List Nat)
deriving DecidableEq

/-- The observable outcome of one handler run: HTTP status, whether the
JSON body was parsed, the store calls issued, and the fields of the JSON
response the handler writes. -/
structure HandlerOutcome where
  status : Nat
  parsed : Bool
  storeCalls : List StoreCall
  okField : Option Bool
  ignoredField : Option (List Nat)
  typeField : Option (List Nat)
  errorField : Option (List Nat)
deriving DecidableEq

/-- The bytes of the event type string "user.created". -/
def userCreatedB : List Nat := [117,115,101,114,46,99,114,101,97,116,101,100]

/-- The bytes of the event type string "user.updated". -/
def userUpdatedB : List Nat := [117,115,101,114,46,117,112,100,97,116,101,100]

/-- The bytes of the event type string "user.deleted". -/
def userDeletedB : List Nat := [117,115,101,114,46,100,101,108,101,116,101,100]

/-- The bytes of the response marker string "missing id". -/
def missingIdB : List Nat := [109,105,115,115,105,110,103,32,105,100]

/-- The dispatch switch of the webhook handler, run on a parsed event.
upsertResult / deleteResult carry the store error message when the
respective store call fails (Go err.Error()), none on success. -/
def dispatchEvent (evt : ClerkWebhookEvent)
    (upsertResult deleteResult : Option (List Nat)) : HandlerOutcome :=
  let name := displayName evt
  let email := pickClerkEmail evt
  if evt.type = userCreatedB ∨ evt.type = userUpdatedB then
    if trimSpace evt.data.id = [] then
      ⟨200, true, [], some true, some missingIdB, some evt.type, none⟩
    else
      let p : UpsertParams :=
        ⟨trimSpace evt.data.id, toText evt.data.username, name, toText email⟩
      match upsertResult with
      | some err => ⟨500, true, [StoreCall.upsert p], none, none, none, some err⟩
      | none => ⟨200, true, [StoreCall.upsert p], some true, none, some evt.type, none⟩
  else if evt.type = userDeletedB then
    if trimSpace evt.data.id = [] then
      ⟨200, true, [], some true, none, some evt.type, none⟩
    else
      match deleteResult with
      | some err =>
        ⟨500, true, [StoreCall.delete (trimSpace evt.data.id)], none, none, none, some err⟩
      | none =>
        ⟨200, true, [StoreCall.delete (trimSpace evt.data.id)], some true, none,
         some evt.type, none⟩
  else ⟨200, true, [], some true, none, some evt.type, none⟩

/-- The whole POST /webhooks/clerk handler: read the body (none when the
read fails), verify the Svix signature, parse the JSON (parseJSON stands
for json.Unmarshal), then dispatch. -/
def webhookHandler (bodyRead : Option (List Nat))
    (secret svixID svixTimestamp svixSignature : List Nat)
    (parseJSON : List Nat → Option ClerkWebhookEvent)
    (upsertResult deleteResult : Option (List Nat)) : HandlerOutcome :=
  match bodyRead with
  | none => ⟨400, false, [], none, none, none, none⟩
  | some body =>
    if verifySvix body secret svixID svixTimestamp svixSignature then
      match parseJSON body with
      | none => ⟨400, true, [], none, none, none, none⟩
      | some evt => dispatchEvent evt upsertResult deleteResult
    else ⟨401, false, [], none, none, none, none⟩

/-! ## Rate limiter (main.go limiterStore over golang.org/x/time/rate)

The third-party rate.Limiter is embedded by its documented token-bucket
semantics with exact rational time and token counts: a bucket holds up to
burst tokens, gains rate tokens per second of elapsed time, starts full,
and an admission consumes one token exactly when at least one is
available. -/

/-- Token-bucket state of one rate.Limiter: current tokens and the time of
the last update. -/
structure TokenBucket where
  tokens : ℚ
  lastTime : ℚ
deriving DecidableEq

/-- Advance a bucket to `now`: accrue elapsed*rate tokens, capped at burst. -/
def bucketAdvance (rate burst : ℚ) (b : TokenBucket) (now : ℚ) : ℚ :=
  min burst (b.tokens + (now - b.lastTime) * rate)

/-- rate.Limiter.Allow at time `now`: take one token when available;
a denied request consumes nothing. -/
def bucketAllow (rate burst : ℚ) (b : TokenBucket) (now : ℚ) : Bool × TokenBucket :=
  let t := bucketAdvance rate burst b now
  if 1 ≤ t then (true, ⟨t - 1, now⟩) else (false, ⟨t, now⟩)

/-- main.go clientLimiter: a bucket plus the lastSeen stamp. -/
structure ClientEntry where
  bucket : TokenBucket
  lastSeen : ℚ
deriving DecidableEq

/-- main.go limiterStore: the client map (as an association list keyed by
client IP) and the construction-time rate and burst. -/
structure LimiterStore where
  clients : List (List Nat × ClientEntry)
  rlimit : ℚ
  burst : ℚ
deriving DecidableEq

/-- main.go newLimiterStore: empty client map with the given rate/burst. -/
def newLimiterStore (rate burst : ℚ) : LimiterStore := ⟨[], rate, burst⟩

/-- Look up the entry of one client identity. -/
def lookupClient (cs : List (List Nat × ClientEntry)) (ip : List Nat) :
    Option ClientEntry :=
  (cs.find? (fun p => p.1 == ip)).map Prod.snd

/-- Replace the entry stored under one client identity. -/
def updateClient (cs : List (List Nat × ClientEntry)) (ip : List Nat)
    (e : ClientEntry) : List (List Nat × ClientEntry) :=
  cs.map (fun p => if p.1 == ip then (p.1, e) else p)

/-- One admission check: limiterStore.get (lookup or lazily create the
client's limiter, stamping lastSeen = now either way; rate.NewLimiter
starts with a full bucket) followed by the middleware's Allow call. -/
def storeAllow (ls : LimiterStore) (ip : List Nat) (now : ℚ) : Bool × LimiterStore :=
  match lookupClient ls.clients ip with
  | some entry =>
    let res := bucketAllow ls.rlimit ls.burst entry.bucket now
    (res.1, ⟨updateClient ls.clients ip ⟨res.2, now⟩, ls.rlimit, ls.burst⟩)
  | none =>
    let res := bucketAllow ls.rlimit ls.burst ⟨ls.burst, now⟩ now
    (res.1, ⟨ls.clients ++ [(ip, ⟨res.2, now⟩)], ls.rlimit, ls.burst⟩)

/-- A run of n admission checks for one client at one instant, collecting
the decisions. -/
def allowRepeat (ls : LimiterStore) (ip : List Nat) (now : ℚ) :
    Nat → List Bool × LimiterStore
  | 0 => ([], ls)
  | Nat.succ n =>
    let r1 := storeAllow ls ip now
    let rest := allowRepeat r1.2 ip now n
    (r1.1 :: rest.1, rest.2)

/-- The ticker period of the background sweep goroutine:
2 * time.Minute, in seconds. -/
def sweepIntervalSeconds : ℚ := 120

/-- The staleness threshold of the sweep: 10 * time.Minute, in seconds. -/
def staleThresholdSeconds : ℚ := 600

/-- One pass of the background sweep at time `now`: delete every client
whose lastSeen is more than the staleness threshold in the past
(time.Since(c.lastSeen) > 10*time.Minute). -/
def sweepStale (ls : LimiterStore) (now : ℚ) : LimiterStore :=
  ⟨ls.clients.filter (fun p => ! decide (staleThresholdSeconds < now - p.2.lastSeen)),
   ls.rlimit, ls.burst⟩

/-! ## Claim C1: user.deleted dispatch -/

/-- The user.deleted event with subject id "u_1" used to exhibit C1. -/
def c1Event : ClerkWebhookEvent := ⟨userDeletedB, ⟨[117, 95, 49], [], [], [], [], []⟩⟩

/-- An active, never-deleted users row for clerk_id "u_1". -/
def c1Row : UserRow := ⟨[117, 95, 49], none, [85, 115, 101, 114], none, roleUserB, true, none⟩

/-- Claim C1, evaluated at the failing input: on a verified user.deleted
event with subject id u_1 the handler issues DeleteUserByClerkID, and that
query physically removes the matching row from the table — the resulting
table is empty, so the record is not preserved, not merely marked
inactive, contrary to the claim's soft-delete behaviour. -/
theorem c1_user_deleted_is_hard_delete :
    (dispatchEvent c1Event none none).storeCalls = [StoreCall.delete [117, 95, 49]]
    ∧ applyDeleteUserByClerkID [c1Row] [117, 95, 49] = []
    ∧ (applyDeleteUserByClerkID [c1Row] [117, 95, 49]).length = 0 := by
  decide

/-! ## Claim C2: role assignment of the upsert -/

/-- Upsert parameters of a first-ever user.created event (subject u_1,
username ju, name Jane, email j@x). -/
def c2Params : UpsertParams :=
  ⟨[117, 95, 49], some [106, 117], [74, 97, 110, 101], some [106, 64, 120]⟩

/-- Claim C2, evaluated at the failing input: the first-ever
UpsertByClerkID call on an empty collection inserts a row whose role is
the schema default 'user', not an elevated role; the call is idempotent
and creates no duplicate, but no elevated role is ever assigned because
the query text carries no role expression at all. -/
theorem c2_first_upsert_gets_default_role :
    applyUpsertByClerkID [] c2Params
      = [⟨[117, 95, 49], some [106, 117], [74, 97, 110, 101], some [106, 64, 120],
          roleUserB, true, none⟩]
    ∧ (applyUpsertByClerkID [] c2Params).map UserRow.role = [roleUserB]
    ∧ roleUserB ≠ roleSuperadminB
    ∧ applyUpsertByClerkID (applyUpsertByClerkID [] c2Params) c2Params
      = applyUpsertByClerkID [] c2Params := by
  decide

/-! ## Claim C10: malformed secret payload never verifies -/

/-- Claim C10: whenever the portion of the secret after the first '_' is
not valid standard base64, verification returns false for every body,
header id, timestamp and signature header. -/
theorem c10_malformed_secret_never_verifies
    (body svixID svixTimestamp svixSignature secret p0 payload : List Nat)
    (hsp : splitFirst 95 secret = some (p0, payload))
    (hdec : base64Decode payload = none) :
    verifySvix body secret svixID svixTimestamp svixSignature = false := by
  by_cases hc : secret = [] ∨ svixID = [] ∨ svixTimestamp = [] ∨ svixSignature = []
  · unfold verifySvix
    rw [if_pos hc]
  · unfold verifySvix
    rw [if_neg hc, hsp]
    simp [hdec]

/-- Witness for C10 at the concrete secret "whsec_%", whose payload '%'
is not base64. -/
theorem c10_malformed_secret_witness :
    splitFirst 95 [119, 104, 115, 101, 99, 95, 37]
      = some ([119, 104, 115, 101, 99], [37])
    ∧ base64Decode [37] = none
    ∧ verifySvix [98] [119, 104, 115, 101, 99, 95, 37] [105] [116] [118, 49, 44, 65]
      = false := by
  refine ⟨by decide, by decide, ?_⟩
  exact c10_malformed_secret_never_verifies [98] [105] [116] [118, 49, 44, 65]
    [119, 104, 115, 101, 99, 95, 37] [119, 104, 115, 101, 99] [37]
    (by decide) (by decide)

/-! ## Claim C4: verification precedes parsing and store access -/

/-- Claim C4: on a readable body, a failed signature verification yields a
bare 401 with no parsing and no store calls; the body is parsed and the
store is reached only when verification succeeded; and verification fails
closed on an empty secret, empty required header, or a secret without the
'_' separator. -/
theorem c4_verify_before_parse_and_store
    (body secret svixID svixTimestamp svixSignature : List Nat)
    (parseJSON : List Nat → Option ClerkWebhookEvent)
    (upsertResult deleteResult : Option (List Nat)) :
    (verifySvix body secret svixID svixTimestamp svixSignature = false →
      webhookHandler (some body) secret svixID svixTimestamp svixSignature
        parseJSON upsertResult deleteResult
        = ⟨401, false, [], none, none, none, none⟩)
    ∧ ((webhookHandler (some body) secret svixID svixTimestamp svixSignature
          parseJSON upsertResult deleteResult).parsed = true →
        verifySvix body secret svixID svixTimestamp svixSignature = true)
    ∧ ((webhookHandler (some body) secret svixID svixTimestamp svixSignature
          parseJSON upsertResult deleteResult).storeCalls ≠ [] →
        verifySvix body secret svixID svixTimestamp svixSignature = true)
    ∧ ((secret = [] ∨ svixID = [] ∨ svixTimestamp = [] ∨ svixSignature = []) →
        verifySvix body secret svixID svixTimestamp svixSignature = false)
    ∧ (splitFirst 95 secret = none →
        verifySvix body secret svixID svixTimestamp svixSignature = false) := by
  refine ⟨?_, ?_, ?_, ?_, ?_⟩
  · intro h
    simp [webhookHandler, h]
  · intro hp
    cases hv : verifySvix body secret svixID svixTimestamp svixSignature with
    | true => rfl
    | false => simp [webhookHandler, hv] at hp
  · intro hs
    cases hv : verifySvix body secret svixID svixTimestamp svixSignature with
    | true => rfl
    | false => simp [webhookHandler, hv] at hs
  · intro h
    unfold verifySvix
    rw [if_pos h]
  · intro h
    by_cases hc : secret = [] ∨ svixID = [] ∨ svixTimestamp = [] ∨ svixSignature = []
    · unfold verifySvix
      rw [if_pos hc]
    · unfold verifySvix
      rw [if_neg hc, h]

/-- Witness for C4 at a concrete all-empty request: verification fails,
and the handler answers a bare 401 with nothing parsed and no store call. -/
theorem c4_verify_before_parse_witness :
    verifySvix [] [] [] [] [] = false
    ∧ webhookHandler (some []) [] [] [] [] (fun _ => none) none none
      = ⟨401, false, [], none, none, none, none⟩
    ∧ splitFirst 95 [] = none := by
  have hf : verifySvix [] [] [] [] [] = false :=
    (c4_verify_before_parse_and_store [] [] [] [] [] (fun _ => none) none none).2.2.2.1
      (Or.inl rfl)
  exact ⟨hf,
    (c4_verify_before_parse_and_store [] [] [] [] [] (fun _ => none) none none).1 hf,
    by decide⟩

/-! ## Claim C6: blank-subject events -/

/-- A user.deleted event whose subject id is whitespace only. -/
def c6Event : ClerkWebhookEvent := ⟨userDeletedB, ⟨[32, 32], [], [], [], [], []⟩⟩

/-- Counterexample to C6 as stated: a blank-subject user.deleted event does
return 200 without store access, but the response carries no ignored
marker at all (ignoredField = none), so it does not signal that the event
was ignored. -/
theorem c6_deleted_blank_no_ignored_marker :
    (dispatchEvent c6Event none none).status = 200
    ∧ (dispatchEvent c6Event none none).storeCalls = []
    ∧ (dispatchEvent c6Event none none).ignoredField = none := by
  decide

/-- Claim C6 as amended: a blank-subject event of the three user.* types
never reaches the store and answers 200; for user.created/user.updated the
response carries the "missing id" ignored marker, while for user.deleted
it is a plain success acknowledgement without an ignored marker. -/
theorem c6_blank_subject_noop_amended (evt : ClerkWebhookEvent)
    (upsertResult deleteResult : Option (List Nat))
    (hblank : trimSpace evt.data.id = []) :
    ((evt.type = userCreatedB ∨ evt.type = userUpdatedB) →
      dispatchEvent evt upsertResult deleteResult
        = ⟨200, true, [], some true, some missingIdB, some evt.type, none⟩)
    ∧ (evt.type = userDeletedB →
      dispatchEvent evt upsertResult deleteResult
        = ⟨200, true, [], some true, none, some evt.type, none⟩) := by
  constructor
  · intro h
    unfold dispatchEvent
    rw [if_pos h, if_pos hblank]
  · intro h
    unfold dispatchEvent
    rw [h]
    rw [if_neg (by decide), if_pos rfl, if_pos hblank]

/-- Witness for C6 at concrete blank-subject user.created and user.deleted
events. -/
theorem c6_blank_subject_noop_witness :
    trimSpace ([32] : List Nat) = []
    ∧ dispatchEvent ⟨userCreatedB, ⟨[32], [], [], [], [], []⟩⟩ none none
      = ⟨200, true, [], some true, some missingIdB, some userCreatedB, none⟩
    ∧ dispatchEvent ⟨userDeletedB, ⟨[32], [], [], [], [], []⟩⟩ none none
      = ⟨200, true, [], some true, none, some userDeletedB, none⟩ :=
  ⟨by decide,
   (c6_blank_subject_noop_amended ⟨userCreatedB, ⟨[32], [], [], [], [], []⟩⟩ none none
     (by decide)).1 (Or.inl rfl),
   (c6_blank_subject_noop_amended ⟨userDeletedB, ⟨[32], [], [], [], [], []⟩⟩ none none
     (by decide)).2 rfl⟩

/-! ## Claim C7: store failures at the dispatch boundary -/

/-- A user.created event with subject id u_1, used to exhibit C7. -/
def c7Event : ClerkWebhookEvent := ⟨userCreatedB, ⟨[117, 95, 49], [], [], [], [], []⟩⟩

/-- Counterexample to C7 as stated: when the store upsert fails with
message "boom", the handler answers 500 with the store error message in
the response body's error field — the body is not opaque. -/
theorem c7_store_error_detail_in_body :
    (dispatchEvent c7Event (some [98, 111, 111, 109]) none).status = 500
    ∧ (dispatchEvent c7Event (some [98, 111, 111, 109]) none).errorField
      = some [98, 111, 111, 109] := by
  decide

/-- Claim C7 as amended: every store failure during dispatch of a
non-blank-subject user.* event yields a 500 whose response body exposes
the store error's message in its error field (gin.H error err.Error());
no opaque conversion happens. -/
theorem c7_store_error_500_amended (evt : ClerkWebhookEvent) (err : List Nat)
    (hid : trimSpace evt.data.id ≠ []) :
    ((evt.type = userCreatedB ∨ evt.type = userUpdatedB) →
      ∀ deleteResult,
        (dispatchEvent evt (some err) deleteResult).status = 500
        ∧ (dispatchEvent evt (some err) deleteResult).errorField = some err)
    ∧ (evt.type = userDeletedB →
      ∀ upsertResult,
        (dispatchEvent evt upsertResult (some err)).status = 500
        ∧ (dispatchEvent evt upsertResult (some err)).errorField = some err) := by
  constructor
  · intro h deleteResult
    unfold dispatchEvent
    rw [if_pos h, if_neg hid]
    exact ⟨rfl, rfl⟩
  · intro h upsertResult
    unfold dispatchEvent
    rw [h]
    rw [if_neg (by decide), if_pos rfl, if_neg hid]
    exact ⟨rfl, rfl⟩

/-- Witness for C7 at the concrete event c7Event and a user.deleted event,
each failing with store message "boom". -/
theorem c7_store_error_500_witness :
    trimSpace c7Event.data.id ≠ []
    ∧ (dispatchEvent c7Event (some [98, 111, 111, 109]) none).errorField
      = some [98, 111, 111, 109]
    ∧ (dispatchEvent ⟨userDeletedB, ⟨[117, 95, 50], [], [], [], [], []⟩⟩ none
        (some [98, 111, 111, 109])).status = 500 :=
  ⟨by decide,
   ((c7_store_error_500_amended c7Event [98, 111, 111, 109] (by decide)).1
     (Or.inl rfl) none).2,
   ((c7_store_error_500_amended ⟨userDeletedB, ⟨[117, 95, 50], [], [], [], [], []⟩⟩
     [98, 111, 111, 109] (by decide)).2 rfl none).1⟩

/-! ## Claim C5: email selection -/

/-- The primary-reference loop returns exactly the lower-cased trimmed
address of the first candidate matching the primary id with a non-blank
address. -/
theorem findPrimaryLoop_eq_find (primary : List Nat) (l : List EmailEntry) :
    findPrimaryLoop primary l
      = (l.find? (fun e => decide (e.id = primary ∧ trimSpace e.emailAddress ≠ []))).map
          (fun e => toLowerBytes (trimSpace e.emailAddress)) := by
  induction l with
  | nil => rfl
  | cons e rest ih =>
    by_cases h : e.id = primary ∧ trimSpace e.emailAddress ≠ []
    · simp [findPrimaryLoop, List.find?_cons, h]
    · simp [findPrimaryLoop, List.find?_cons, h, ih]

/-- The fallback loop returns exactly the lower-cased trimmed address of
the first candidate with a non-blank address. -/
theorem findAnyLoop_eq_find (l : List EmailEntry) :
    findAnyLoop l
      = (l.find? (fun e => decide (trimSpace e.emailAddress ≠ []))).map
          (fun e => toLowerBytes (trimSpace e.emailAddress)) := by
  induction l with
  | nil => rfl
  | cons e rest ih =>
    by_cases h : trimSpace e.emailAddress ≠ []
    · simp [findAnyLoop, List.find?_cons, h]
    · simp [findAnyLoop, List.find?_cons, h, ih]

/-- Claim C5: pickClerkEmail is exactly the specification's deterministic
selection over the primary-reference id and the ordered candidate list —
first matching primary candidate with a non-blank trimmed address
(lower-cased), else first non-blank candidate in order (lower-cased),
else the empty string. -/
theorem c5_email_selection_deterministic (evt : ClerkWebhookEvent) :
    pickClerkEmail evt
      = emailSelectionSpec evt.data.primaryEmailAddressID evt.data.emailAddresses := by
  unfold pickClerkEmail emailSelectionSpec
  rw [findPrimaryLoop_eq_find, findAnyLoop_eq_find]
  by_cases hp : evt.data.primaryEmailAddressID ≠ []
  · simp only [if_pos hp]
    cases List.find?
        (fun e => decide (e.id = evt.data.primaryEmailAddressID ∧ trimSpace e.emailAddress ≠ []))
        evt.data.emailAddresses with
    | none =>
      cases List.find? (fun e => decide (trimSpace e.emailAddress ≠ []))
          evt.data.emailAddresses with
      | none => rfl
      | some e => rfl
    | some e => rfl
  · simp only [if_neg hp]
    cases List.find? (fun e => decide (trimSpace e.emailAddress ≠ []))
        evt.data.emailAddresses with
    | none => rfl
    | some e => rfl

/-! ## Rate-limiter store lemmas -/

/-- Looking up in a cons: hit the head when its key matches, else recurse. -/
theorem lookupClient_cons (x : List Nat × ClientEntry)
    (l : List (List Nat × ClientEntry)) (ip : List Nat) :
    lookupClient (x :: l) ip = if x.1 == ip then some x.2 else lookupClient l ip := by
  unfold lookupClient
  rw [List.find?_cons]
  by_cases h : x.1 == ip
  · simp [h]
  · simp [h]

/-- Replacing one client's entry leaves every other client's lookup
unchanged. -/
theorem lookupClient_update_ne (cs : List (List Nat × ClientEntry))
    (ip ip2 : List Nat) (e : ClientEntry) (h : ip ≠ ip2) :
    lookupClient (updateClient cs ip e) ip2 = lookupClient cs ip2 := by
  induction cs with
  | nil => rfl
  | cons p rest ih =>
    unfold updateClient
    rw [List.map_cons]
    by_cases hp : p.1 == ip
    · have hpe : p.1 = ip := by simpa using hp
      rw [if_pos hp, lookupClient_cons, lookupClient_cons]
      have : (p.1 == ip2) = false := by
        simp [hpe, h]
      simp only [this, if_neg Bool.false_ne_true]
      exact ih
    · rw [if_neg hp, lookupClient_cons, lookupClient_cons]
      by_cases hq : p.1 == ip2
      · simp [hq]
      · simp only [hq, if_neg Bool.false_ne_true]
        exact ih

/-- Appending a new client's entry leaves every other client's lookup
unchanged. -/
theorem lookupClient_append_ne (cs : List (List Nat × ClientEntry))
    (ip ip2 : List Nat) (e : ClientEntry) (h : ip ≠ ip2) :
    lookupClient (cs ++ [(ip, e)]) ip2 = lookupClient cs ip2 := by
  induction cs with
  | nil =>
    rw [List.nil_append, lookupClient_cons]
    have : ((ip, e).1 == ip2) = false := by simp [h]
    simp [this, lookupClient]
  | cons p rest ih =>
    rw [List.cons_append, lookupClient_cons, lookupClient_cons]
    by_cases hq : p.1 == ip2
    · simp [hq]
    · simp only [hq, if_neg Bool.false_ne_true]
      exact ih

/-- After replacing a present client's entry, its lookup yields the new
entry. -/
theorem lookupClient_update_self (cs : List (List Nat × ClientEntry))
    (ip : List Nat) (e : ClientEntry) (h : (lookupClient cs ip).isSome) :
    lookupClient (updateClient cs ip e) ip = some e := by
  induction cs with
  | nil => simp [lookupClient] at h
  | cons p rest ih =>
    unfold updateClient
    rw [List.map_cons]
    by_cases hp : p.1 == ip
    · rw [if_pos hp, lookupClient_cons]
      simp [hp]
    · rw [if_neg hp, lookupClient_cons]
      rw [lookupClient_cons] at h
      simp only [hp, if_neg Bool.false_ne_true] at h ⊢
      exact ih h

/-- After appending an absent client's entry, its lookup yields that
entry. -/
theorem lookupClient_append_self (cs : List (List Nat × ClientEntry))
    (ip : List Nat) (e : ClientEntry) (h : lookupClient cs ip = none) :
    lookupClient (cs ++ [(ip, e)]) ip = some e := by
  induction cs with
  | nil =>
    rw [List.nil_append, lookupClient_cons]
    simp
  | cons p rest ih =>
    rw [List.cons_append, lookupClient_cons]
    rw [lookupClient_cons] at h
    by_cases hq : p.1 == ip
    · simp [hq] at h
    · simp only [hq, if_neg Bool.false_ne_true] at h ⊢
      exact ih h

/-- One admission check never changes the configured rate or burst. -/
theorem storeAllow_preserves (ls : LimiterStore) (ip : List Nat) (t : ℚ) :
    ((storeAllow ls ip t).2).rlimit = ls.rlimit
    ∧ ((storeAllow ls ip t).2).burst = ls.burst := by
  cases h : lookupClient ls.clients ip <;> simp [storeAllow, h]

/-- One admission check by one client never changes another client's
lookup. -/
theorem storeAllow_lookup_ne (ls : LimiterStore) (ip ip2 : List Nat) (t : ℚ)
    (h : ip ≠ ip2) :
    lookupClient ((storeAllow ls ip t).2).clients ip2 = lookupClient ls.clients ip2 := by
  cases hl : lookupClient ls.clients ip with
  | some entry =>
    simp only [storeAllow, hl]
    exact lookupClient_update_ne _ _ _ _ h
  | none =>
    simp only [storeAllow, hl]
    exact lookupClient_append_ne _ _ _ _ h

/-- An admission check's decision, the client's own resulting lookup, and
the configuration depend only on the client's lookup and the
configuration. -/
theorem storeAllow_congr (ls1 ls2 : LimiterStore) (ip : List Nat) (t : ℚ)
    (hl : lookupClient ls1.clients ip = lookupClient ls2.clients ip)
    (hr : ls1.rlimit = ls2.rlimit) (hb : ls1.burst = ls2.burst) :
    (storeAllow ls1 ip t).1 = (storeAllow ls2 ip t).1
    ∧ lookupClient ((storeAllow ls1 ip t).2).clients ip
      = lookupClient ((storeAllow ls2 ip t).2).clients ip
    ∧ ((storeAllow ls1 ip t).2).rlimit = ((storeAllow ls2 ip t).2).rlimit
    ∧ ((storeAllow ls1 ip t).2).burst = ((storeAllow ls2 ip t).2).burst := by
  cases h2 : lookupClient ls2.clients ip with
  | some entry =>
    have h1 : lookupClient ls1.clients ip = some entry := hl.trans h2
    refine ⟨?_, ?_, ?_, ?_⟩
    · simp only [storeAllow, h1, h2, hr, hb]
    · simp only [storeAllow, h1, h2, hr, hb]
      rw [lookupClient_update_self _ _ _ (by simp [h1]),
          lookupClient_update_self _ _ _ (by simp [h2])]
    · simp only [storeAllow, h1, h2, hr, hb]
    · simp only [storeAllow, h1, h2, hr, hb]
  | none =>
    have h1 : lookupClient ls1.clients ip = none := hl.trans h2
    refine ⟨?_, ?_, ?_, ?_⟩
    · simp only [storeAllow, h1, h2, hr, hb]
    · simp only [storeAllow, h1, h2, hr, hb]
      rw [lookupClient_append_self _ _ _ h1, lookupClient_append_self _ _ _ h2]
    · simp only [storeAllow, h1, h2, hr, hb]
    · simp only [storeAllow, h1, h2, hr, hb]

/-- A run of admission checks by one client never changes another
client's lookup, nor the configuration. -/
theorem allowRepeat_lookup_ne (ip ip2 : List Nat) (t : ℚ) (h : ip ≠ ip2) :
    ∀ (n : Nat) (ls : LimiterStore),
      lookupClient ((allowRepeat ls ip t n).2).clients ip2 = lookupClient ls.clients ip2
      ∧ ((allowRepeat ls ip t n).2).rlimit = ls.rlimit
      ∧ ((allowRepeat ls ip t n).2).burst = ls.burst := by
  intro n
  induction n with
  | zero => exact fun ls => ⟨rfl, rfl, rfl⟩
  | succ n ih =>
    intro ls
    have hstep := ih (storeAllow ls ip t).2
    refine ⟨?_, ?_, ?_⟩
    · exact hstep.1.trans (storeAllow_lookup_ne ls ip ip2 t h)
    · exact hstep.2.1.trans (storeAllow_preserves ls ip t).1
    · exact hstep.2.2.trans (storeAllow_preserves ls ip t).2

/-- A run of admission checks depends only on the client's starting
lookup and the configuration. -/
theorem allowRepeat_congr (ip : List Nat) (t : ℚ) :
    ∀ (n : Nat) (ls1 ls2 : LimiterStore),
      lookupClient ls1.clients ip = lookupClient ls2.clients ip →
      ls1.rlimit = ls2.rlimit → ls1.burst = ls2.burst →
      (allowRepeat ls1 ip t n).1 = (allowRepeat ls2 ip t n).1 := by
  intro n
  induction n with
  | zero => exact fun ls1 ls2 _ _ _ => rfl
  | succ n ih =>
    intro ls1 ls2 hl hr hb
    have hstep := storeAllow_congr ls1 ls2 ip t hl hr hb
    show (storeAllow ls1 ip t).1 :: (allowRepeat (storeAllow ls1 ip t).2 ip t n).1
        = (storeAllow ls2 ip t).1 :: (allowRepeat (storeAllow ls2 ip t).2 ip t n).1
    rw [hstep.1, ih _ _ hstep.2.1 hstep.2.2.1 hstep.2.2.2]

/-! ## Claim C8: saturation, refill and isolation at rate 10, burst 20 -/

/-- Claim C8: on the limiter constructed with rate 10/s and burst 20,
25 admission checks of one client at one instant yield exactly 20 admits
then 5 denials; any further check of that client after at least one
refill interval (1/10 s) succeeds; and a run of checks by one client
never changes the decision another client would get on the fresh store. -/
theorem c8_rate_limiter_saturation :
    (allowRepeat (newLimiterStore 10 20) [97] 0 25).1
      = List.replicate 20 true ++ List.replicate 5 false
    ∧ (∀ dt : ℚ, 1/10 ≤ dt →
        (storeAllow ((allowRepeat (newLimiterStore 10 20) [97] 0 25).2) [97] (0 + dt)).1
          = true)
    ∧ (∀ (n : Nat) (ipA ipB : List Nat) (t u : ℚ), ipA ≠ ipB →
        (storeAllow ((allowRepeat (newLimiterStore 10 20) ipA t n).2) ipB u).1
          = (storeAllow (newLimiterStore 10 20) ipB u).1) := by
  refine ⟨by with_unfolding_all decide, ?_, ?_⟩
  · intro dt hdt
    have hst : (allowRepeat (newLimiterStore 10 20) [97] 0 25).2
        = ⟨[([97], ⟨⟨0, 0⟩, 0⟩)], 10, 20⟩ := by with_unfolding_all decide
    rw [hst]
    have hl : lookupClient (⟨[([97], ⟨⟨0, 0⟩, 0⟩)], 10, 20⟩ : LimiterStore).clients [97]
        = some ⟨⟨0, 0⟩, 0⟩ := by with_unfolding_all decide
    simp only [storeAllow, hl]
    unfold bucketAllow bucketAdvance
    have hmin : (1 : ℚ) ≤ min 20 ((⟨0, 0⟩ : TokenBucket).tokens + ((0 + dt) - (⟨0, 0⟩ : TokenBucket).lastTime) * 10) := by
      refine le_min (by norm_num) ?_
      have h10 := mul_le_mul_of_nonneg_right hdt (show (0:ℚ) ≤ 10 by norm_num)
      have : (1 : ℚ) ≤ dt * 10 := by linarith
      show (1 : ℚ) ≤ 0 + ((0 + dt) - 0) * 10
      linarith
    rw [if_pos hmin]
  · intro n ipA ipB t u hne
    obtain ⟨hlook, hr, hb⟩ := allowRepeat_lookup_ne ipA ipB t hne n (newLimiterStore 10 20)
    exact (storeAllow_congr _ _ ipB u hlook hr hb).1

/-- Witness for C8: the refill admission at exactly one interval, and
isolation of client [98] from a run by client [97]. -/
theorem c8_rate_limiter_saturation_witness :
    ((1:ℚ)/10 ≤ 1/10)
    ∧ (storeAllow ((allowRepeat (newLimiterStore 10 20) [97] 0 25).2) [97] (0 + 1/10)).1
      = true
    ∧ ([97] : List Nat) ≠ [98]
    ∧ (storeAllow ((allowRepeat (newLimiterStore 10 20) [97] 0 3).2) [98] 0).1
      = (storeAllow (newLimiterStore 10 20) [98] 0).1 :=
  ⟨le_refl _,
   c8_rate_limiter_saturation.2.1 (1/10) (le_refl _),
   by decide,
   c8_rate_limiter_saturation.2.2 3 [97] [98] 0 0 (by decide)⟩

/-! ## Claim C9: sweep eviction -/

/-- A client absent from the key list has no lookup. -/
theorem lookupClient_eq_none_of_not_mem (cs : List (List Nat × ClientEntry))
    (ip : List Nat) (h : ip ∉ cs.map Prod.fst) : lookupClient cs ip = none := by
  induction cs with
  | nil => rfl
  | cons p rest ih =>
    rw [List.map_cons] at h
    rw [lookupClient_cons]
    by_cases hp : p.1 == ip
    · exact absurd (by simp [List.mem_cons]; left; symm; simpa using hp) h
    · simp only [hp, if_neg Bool.false_ne_true]
      exact ih (fun hm => h (List.mem_cons_of_mem _ hm))

/-- Filtering the stale entries out of a duplicate-free client list
removes a stale client's lookup entirely. -/
theorem lookup_filter_stale_none (now : ℚ) :
    ∀ (cs : List (List Nat × ClientEntry)) (ip : List Nat) (e : ClientEntry),
      (cs.map Prod.fst).Nodup →
      lookupClient cs ip = some e →
      staleThresholdSeconds < now - e.lastSeen →
      lookupClient
        (cs.filter (fun p => ! decide (staleThresholdSeconds < now - p.2.lastSeen))) ip
        = none := by
  intro cs
  induction cs with
  | nil => intro ip e _ hl; simp [lookupClient] at hl
  | cons p rest ih =>
    intro ip e hnd hl hstale
    rw [List.map_cons, List.nodup_cons] at hnd
    rw [lookupClient_cons] at hl
    rw [List.filter_cons]
    by_cases hp : p.1 == ip
    · rw [if_pos hp] at hl
      have he : p.2 = e := by injection hl
      have hpred : (! decide (staleThresholdSeconds < now - p.2.lastSeen)) = false := by
        rw [he]
        simp [hstale]
      rw [hpred]
      simp only [Bool.false_eq_true, if_neg Bool.false_ne_true]
      apply lookupClient_eq_none_of_not_mem
      intro hm
      apply hnd.1
      have hpe : p.1 = ip := by simpa using hp
      rw [hpe]
      obtain ⟨q, hq, hqf⟩ := List.mem_map.mp hm
      exact List.mem_map.mpr ⟨q, (List.mem_filter.mp hq).1, hqf⟩
    · rw [if_neg hp] at hl
      by_cases hkeep : (! decide (staleThresholdSeconds < now - p.2.lastSeen)) = true
      · rw [hkeep, if_pos rfl, lookupClient_cons]
        simp only [hp, if_neg Bool.false_ne_true]
        exact ih ip e hnd.2 hl hstale
      · rw [Bool.not_eq_true] at hkeep
        rw [hkeep]
        simp only [Bool.false_eq_true, if_neg Bool.false_ne_true]
        exact ih ip e hnd.2 hl hstale

/-- Claim C9: the sweep runs on a 2-minute ticker against a 10-minute
staleness threshold; after a sweep at time now every surviving entry was
seen within the threshold; a client whose entry is staler than the
threshold (in a duplicate-free client map) is gone after the sweep; and a
client with no entry is treated exactly like a brand-new client of a
fresh store with the full burst. -/
theorem c9_sweep_eviction :
    sweepIntervalSeconds = 120
    ∧ staleThresholdSeconds = 600
    ∧ (∀ (ls : LimiterStore) (now : ℚ) (p : List Nat × ClientEntry),
        p ∈ (sweepStale ls now).clients → now - p.2.lastSeen ≤ staleThresholdSeconds)
    ∧ (∀ (ls : LimiterStore) (now : ℚ) (ip : List Nat) (e : ClientEntry),
        (ls.clients.map Prod.fst).Nodup →
        lookupClient ls.clients ip = some e →
        staleThresholdSeconds < now - e.lastSeen →
        lookupClient (sweepStale ls now).clients ip = none)
    ∧ (∀ (ls : LimiterStore) (ip : List Nat) (now : ℚ) (n : Nat),
        lookupClient ls.clients ip = none → ls.rlimit = 10 → ls.burst = 20 →
        (allowRepeat ls ip now n).1 = (allowRepeat (newLimiterStore 10 20) ip now n).1) := by
  refine ⟨rfl, rfl, ?_, ?_, ?_⟩
  · intro ls now p hp
    unfold sweepStale at hp
    simp only [List.mem_filter, Bool.not_eq_true', decide_eq_false_iff_not, not_lt] at hp
    exact hp.2
  · intro ls now ip e hnd hl hstale
    exact lookup_filter_stale_none now ls.clients ip e hnd hl hstale
  · intro ls ip now n hl hr hb
    exact allowRepeat_congr ip now n ls (newLimiterStore 10 20) (by rw [hl]; rfl) hr hb

/-- A one-client store whose entry was last seen at time 0, for the C9
witness. -/
def c9Store : LimiterStore := ⟨[([97], ⟨⟨20, 0⟩, 0⟩)], 10, 20⟩

/-- Witness for C9: the stale client [97] of c9Store is removed by a sweep
at time 601, and its next 20 admission checks behave exactly like a
brand-new client's. -/
theorem c9_sweep_eviction_witness :
    (c9Store.clients.map Prod.fst).Nodup
    ∧ lookupClient c9Store.clients [97] = some ⟨⟨20, 0⟩, 0⟩
    ∧ staleThresholdSeconds < 601 - (0:ℚ)
    ∧ lookupClient (sweepStale c9Store 601).clients [97] = none
    ∧ (allowRepeat (sweepStale c9Store 601) [97] 601 20).1
      = (allowRepeat (newLimiterStore 10 20) [97] 601 20).1 :=
  ⟨by decide, by decide, by with_unfolding_all decide,
   c9_sweep_eviction.2.2.2.1 c9Store 601 [97] ⟨⟨20, 0⟩, 0⟩ (by decide) (by decide)
     (by with_unfolding_all decide),
   c9_sweep_eviction.2.2.2.2 (sweepStale c9Store 601) [97] 601 20
     (by with_unfolding_all decide) (by with_unfolding_all decide)
     (by with_unfolding_all decide)⟩

/-! ## Claim C3: signature round-trip and mutation -/

/-- Splitting on a byte that occurs nowhere in the string leaves it whole. -/
theorem splitOnByte_no_sep (sep : Nat) (s : List Nat) (h : ∀ c ∈ s, c ≠ sep) :
    splitOnByte sep s = [s] := by
  induction s with
  | nil => rfl
  | cons c rest ih =>
    have hr : splitOnByte sep rest = [rest] :=
      ih (fun x hx => h x (List.mem_cons_of_mem _ hx))
    simp only [splitOnByte, hr]
    rw [if_neg (h c (List.mem_cons_self _ _))]

/-- No base64 alphabet byte is a space. -/
theorem b64Char_ne_space (n : Nat) : b64Char n ≠ 32 := by
  unfold b64Char
  split_ifs <;> omega

/-- A base64 encoding never contains a space byte, so it survives the
signature header's space-tokenisation whole. -/
theorem base64Encode_no_space : ∀ (bs : List Nat), ∀ c ∈ base64Encode bs, c ≠ 32
  | [], c, hc => by simp [base64Encode] at hc
  | [a], c, hc => by
    simp only [base64Encode, List.mem_cons, List.not_mem_nil, or_false] at hc
    rcases hc with h | h | h | h <;> subst h
    · exact b64Char_ne_space _
    · exact b64Char_ne_space _
    · decide
    · decide
  | [a, b], c, hc => by
    simp only [base64Encode, List.mem_cons, List.not_mem_nil, or_false] at hc
    rcases hc with h | h | h | h <;> subst h
    · exact b64Char_ne_space _
    · exact b64Char_ne_space _
    · exact b64Char_ne_space _
    · decide
  | a :: b :: d :: rest, c, hc => by
    simp only [base64Encode, List.mem_cons] at hc
    rcases hc with h | h | h | h | h
    · exact h ▸ b64Char_ne_space _
    · exact h ▸ b64Char_ne_space _
    · exact h ▸ b64Char_ne_space _
    · exact h ▸ b64Char_ne_space _
    · exact base64Encode_no_space rest c h

/-- Characterisation of verifySvix on a well-formed secret, non-empty
headers and a single space-free `v1,` token: it accepts exactly when the
token's payload is the expected base64 HMAC signature of the canonical
message. -/
theorem verifySvix_v1_token
    (body secret svixID svixTimestamp p0 payload key enc : List Nat)
    (hsp : splitFirst 95 secret = some (p0, payload))
    (hkey : base64Decode payload = some key)
    (hid : svixID ≠ []) (hts : svixTimestamp ≠ [])
    (hnosp : ∀ c ∈ enc, c ≠ 32) :
    verifySvix body secret svixID svixTimestamp ([118, 49, 44] ++ enc)
      = decide (enc = base64Encode (hmacSha256 key (canonicalMsg svixID svixTimestamp body))) := by
  have hs : secret ≠ [] := by
    intro h
    rw [h] at hsp
    simp [splitFirst] at hsp
  have hcond : ¬(secret = [] ∨ svixID = [] ∨ svixTimestamp = []
      ∨ ([118, 49, 44] ++ enc : List Nat) = []) := by
    push_neg
    exact ⟨hs, hid, hts, by simp⟩
  unfold verifySvix
  rw [if_neg hcond]
  simp only [hsp, hkey]
  have hsp32 : splitOnByte 32 ([118, 49, 44] ++ enc) = [[118, 49, 44] ++ enc] := by
    apply splitOnByte_no_sep
    intro c hc
    rcases List.mem_append.mp hc with h | h
    · simp only [List.mem_cons, List.not_mem_nil, or_false] at h
      rcases h with h | h | h <;> omega
    · exact hnosp c h
  rw [hsp32]
  simp only [List.any_cons, List.any_nil, Bool.or_false]
  have hsf : splitFirst 44 ([118, 49, 44] ++ enc) = some ([118, 49], enc) := by
    simp [splitFirst]
  simp only [hsf]
  simp

/-- Two byte strings that differ in exactly one position: a shared head, a
differing byte, a shared tail. -/
def oneByteDiff (xs ys : List Nat) : Prop :=
  ∃ u a b v, a ≠ b ∧ xs = u ++ a :: v ∧ ys = u ++ b :: v

/-- A single-byte mutation of one of the three signed components (id,
timestamp, body), the other two kept. -/
def mutatedTriple (x y : List Nat × List Nat × List Nat) : Prop :=
  (oneByteDiff x.1 y.1 ∧ y.2.1 = x.2.1 ∧ y.2.2 = x.2.2)
  ∨ (y.1 = x.1 ∧ oneByteDiff x.2.1 y.2.1 ∧ y.2.2 = x.2.2)
  ∨ (y.1 = x.1 ∧ y.2.1 = x.2.1 ∧ oneByteDiff x.2.2 y.2.2)

/-- A one-byte mutation of a string is never empty. -/
theorem oneByteDiff_ne_nil (xs ys : List Nat) (h : oneByteDiff xs ys) : ys ≠ [] := by
  obtain ⟨u, a, b, v, hab, h1, h2⟩ := h
  rw [h2]
  simp

/-- Claim C3 as amended: for a well-formed secret (prefix, '_', valid
base64 payload decoding to the key) and non-empty id and timestamp
headers, presenting the verifier's expected signature — base64 of the
HMAC-SHA256 of the dotted canonical message id.ts.body — as the token
`v1,sig` verifies; and any single-byte mutation of id, timestamp or body
whose canonical message hashes to a different digest makes verification
of the original signature fail.  (That the digest does change is exactly
collision-freeness of HMAC-SHA256 on the mutated pair; it is taken as a
hypothesis and checked concretely in the witness.) -/
theorem c3_signature_roundtrip_amended
    (body svixID svixTimestamp secret p0 payload key : List Nat)
    (hsp : splitFirst 95 secret = some (p0, payload))
    (hkey : base64Decode payload = some key)
    (hid : svixID ≠ []) (hts : svixTimestamp ≠ []) :
    verifySvix body secret svixID svixTimestamp
      ([118, 49, 44] ++ base64Encode (hmacSha256 key (canonicalMsg svixID svixTimestamp body)))
      = true
    ∧ (∀ id2 ts2 body2,
        mutatedTriple (svixID, svixTimestamp, body) (id2, ts2, body2) →
        base64Encode (hmacSha256 key (canonicalMsg id2 ts2 body2))
          ≠ base64Encode (hmacSha256 key (canonicalMsg svixID svixTimestamp body)) →
        verifySvix body2 secret id2 ts2
          ([118, 49, 44] ++ base64Encode (hmacSha256 key (canonicalMsg svixID svixTimestamp body)))
          = false) := by
  constructor
  · rw [verifySvix_v1_token body secret svixID svixTimestamp p0 payload key _
      hsp hkey hid hts (base64Encode_no_space _)]
    simp
  · intro id2 ts2 body2 hmut hne
    have hid2 : id2 ≠ [] := by
      rcases hmut with ⟨h, _, _⟩ | ⟨h, _, _⟩ | ⟨h, _, _⟩
      · exact oneByteDiff_ne_nil _ _ h
      · have h2 : id2 = svixID := h
        rw [h2]; exact hid
      · have h2 : id2 = svixID := h
        rw [h2]; exact hid
    have hts2 : ts2 ≠ [] := by
      rcases hmut with ⟨_, h, _⟩ | ⟨_, h, _⟩ | ⟨_, h, _⟩
      · have h2 : ts2 = svixTimestamp := h
        rw [h2]; exact hts
      · exact oneByteDiff_ne_nil _ _ h
      · have h2 : ts2 = svixTimestamp := h
        rw [h2]; exact hts
    rw [verifySvix_v1_token body2 secret id2 ts2 p0 payload key _
      hsp hkey hid2 hts2 (base64Encode_no_space _)]
    simp only [decide_eq_false_iff_not]
    exact fun h => hne h.symm

/-- Counterexample to C3 as stated: the claim quantifies over every header
id, but at the empty id the verifier fails closed, so presenting the
expected signature — whether over the code's dotted canonical message or
the dot-less concatenation the claim's formula spells out — does not
verify. -/
theorem c3_claim_counterexample :
    verifySvix [98] [119, 104, 115, 101, 99, 95, 65, 65, 65, 65] [] [116]
      ([118, 49, 44] ++ base64Encode (hmacSha256 [0, 0, 0] (canonicalMsg [] [116] [98])))
      = false
    ∧ verifySvix [98] [119, 104, 115, 101, 99, 95, 65, 65, 65, 65] [] [116]
      ([118, 49, 44] ++ base64Encode (hmacSha256 [0, 0, 0] ([] ++ (46 :: ([116] ++ [98])))))
      = false := by
  constructor <;> rfl

/-- Witness for C3 at the secret "whsec_AAAA" (key 0x000000), id "i",
timestamp "t", body "b", with the body mutated to "c": the well-formedness
hypotheses, the round-trip acceptance, the mutation relation, the concrete
digest difference, and the rejection of the original signature on the
mutated body. -/
theorem c3_signature_roundtrip_witness :
    splitFirst 95 [119, 104, 115, 101, 99, 95, 65, 65, 65, 65]
      = some ([119, 104, 115, 101, 99], [65, 65, 65, 65])
    ∧ base64Decode [65, 65, 65, 65] = some [0, 0, 0]
    ∧ verifySvix [98] [119, 104, 115, 101, 99, 95, 65, 65, 65, 65] [105] [116]
        ([118, 49, 44] ++ base64Encode (hmacSha256 [0, 0, 0] (canonicalMsg [105] [116] [98])))
        = true
    ∧ mutatedTriple ([105], [116], [98]) ([105], [116], [99])
    ∧ base64Encode (hmacSha256 [0, 0, 0] (canonicalMsg [105] [116] [99]))
        ≠ base64Encode (hmacSha256 [0, 0, 0] (canonicalMsg [105] [116] [98]))
    ∧ verifySvix [99] [119, 104, 115, 101, 99, 95, 65, 65, 65, 65] [105] [116]
        ([118, 49, 44] ++ base64Encode (hmacSha256 [0, 0, 0] (canonicalMsg [105] [116] [98])))
        = false := by
  have hmut : mutatedTriple ([105], [116], [98]) ([105], [116], [99]) :=
    Or.inr (Or.inr ⟨rfl, rfl, ⟨[], 98, 99, [], by decide, rfl, rfl⟩⟩)
  have hne : base64Encode (hmacSha256 [0, 0, 0] (canonicalMsg [105] [116] [99]))
      ≠ base64Encode (hmacSha256 [0, 0, 0] (canonicalMsg [105] [116] [98])) := by decide
  refine ⟨by decide, by decide, ?_, hmut, hne, ?_⟩
  · exact (c3_signature_roundtrip_amended [98] [105] [116]
      [119, 104, 115, 101, 99, 95, 65, 65, 65, 65] [119, 104, 115, 101, 99]
      [65, 65, 65, 65] [0, 0, 0] (by decide) (by decide) (by decide) (by decide)).1
  · exact (c3_signature_roundtrip_amended [98] [105] [116]
      [119, 104, 115, 101, 99, 95, 65, 65, 65, 65] [119, 104, 115, 101, 99]
      [65, 65, 65, 65] [0, 0, 0] (by decide) (by decide) (by decide) (by decide)).2
      [105] [116] [99] hmut hne

end Prima
